import Mathlib

/-!
Shallow embedding of the identifier allocation subsystem of `todel`
(`src/ids/mod.rs`): the Eludris epoch constant, `generate_instance_id`,
and the sequence-counted `IDGenerator` with its `generate_id` operation.

Wall-clock time is modelled as a `Nat` parameter `nowMs`, the current time
in milliseconds since the Unix epoch.  Machine integers are modelled as
`Nat` with explicit `% 2 ^ w` at each point where the Rust code truncates
(`as u32`, `as u64`, shifts in a fixed width).  A Rust `panic!` /
`expect` failure is modelled as `Option.none`.
-/

namespace Todel

/-- The Eludris epoch, in seconds since the Unix epoch:
`UNIX_EPOCH + Duration::from_secs(1_650_000_000)`. -/
def ELUDRIS_EPOCH_SECS : Nat := 1650000000

/-- The Eludris epoch, in milliseconds since the Unix epoch. -/
def ELUDRIS_EPOCH_MS : Nat := ELUDRIS_EPOCH_SECS * 1000

/-- Models `SystemTime::now().duration_since(*ELUDRIS_EPOCH)` followed by
`.as_millis()`: `none` models the `Err` case (current time earlier than
the epoch), which the Rust code turns into a panic via `.expect`. -/
def durationSinceEpochMs (nowMs : Nat) : Option Nat :=
  if nowMs < ELUDRIS_EPOCH_MS then none else some (nowMs - ELUDRIS_EPOCH_MS)

/-- The function `generate_instance_id` from `src/ids/mod.rs`:
`(now.duration_since(EPOCH).expect(..).as_millis() as u32 & 0xFFFF) << 8
 | *name.as_bytes().first().expect(..) as u32`.
The instance name is modelled as its UTF-8 byte list; `none` models either
panic (clock before epoch, or empty name). -/
def generate_instance_id (nowMs : Nat) (instance_name : List Nat) : Option Nat :=
  match durationSinceEpochMs nowMs with
  | none => none
  | some millis =>
    match instance_name.head? with
    | none => none
    | some b => some ((((millis % 2 ^ 32) &&& 0xFFFF) <<< 8) % 2 ^ 32 ||| b)

/-- The `IDGenerator` struct: `instance_id: u32`, `sequence: u8`.
Field values are `Nat`s; the `u32`/`u8` range invariants appear as
hypotheses (`instance_id < 2 ^ 32`, `sequence < 256`) where needed. -/
structure IDGenerator where
  instance_id : Nat
  sequence : Nat
deriving Repr, DecidableEq

/-- Constructor `IDGenerator::new`: any instance id, sequence starts at 0. -/
def IDGenerator.new (instance_id : Nat) : IDGenerator :=
  { instance_id := instance_id, sequence := 0 }

/-- The sequence update performed at the start of `generate_id`:
`if self.sequence == u8::MAX { self.sequence = 0 } else { self.sequence += 1 }`. -/
def next_sequence (sequence : Nat) : Nat :=
  if sequence = 255 then 0 else sequence + 1

/-- Method `IDGenerator::generate_id`: updates the sequence, then returns
`((millis as u64) << 24 | instance_id as u64) << 8 | sequence as u64`
together with the updated generator state.  Each `u64` shift is followed
by `% 2 ^ 64` for the Rust fixed-width truncation; `none` models the
clock panic. -/
def IDGenerator.generate_id (g : IDGenerator) (nowMs : Nat) : Option (Nat × IDGenerator) :=
  let sequence := next_sequence g.sequence
  match durationSinceEpochMs nowMs with
  | none => none
  | some millis =>
    some (((((millis % 2 ^ 64) <<< 24) % 2 ^ 64 ||| g.instance_id) <<< 8) % 2 ^ 64 ||| sequence,
      { g with sequence := sequence })

/-- A run of consecutive `generate_id` calls at the given clock readings. -/
def IDGenerator.generate_ids (g : IDGenerator) (times : List Nat) :
    Option (List Nat × IDGenerator) :=
  match times with
  | [] => some ([], g)
  | t :: ts =>
    match g.generate_id t with
    | none => none
    | some (id, g2) =>
      match g2.generate_ids ts with
      | none => none
      | some (ids, g3) => some (id :: ids, g3)

/-! ### Arithmetic helper lemmas -/

/-- Bitwise-or of a multiple of `2 ^ n` with a value below `2 ^ n` is addition. -/
theorem or_two_pow_mul : ∀ (n q y : Nat), y < 2 ^ n → 2 ^ n * q ||| y = 2 ^ n * q + y := by
  intro n
  induction n with
  | zero =>
    intro q y hy
    have hy0 : y = 0 := by simpa using hy
    subst hy0
    simp
  | succ n ih =>
    intro q y hy
    have hx2 : 2 ^ (n + 1) * q = 2 * (2 ^ n * q) := by ring
    have hdiv : (2 ^ (n + 1) * q ||| y) / 2 = 2 ^ n * q ||| y / 2 := by
      rw [Nat.or_div_two, hx2, Nat.mul_div_cancel_left _ (by omega)]
    have hxmod : (2 ^ (n + 1) * q) % 2 = 0 := by
      rw [hx2]
      exact Nat.mul_mod_right 2 _
    have hmod : (2 ^ (n + 1) * q ||| y) % 2 = y % 2 := by
      rcases Nat.mod_two_eq_zero_or_one y with h | h
      · have hne : ¬(2 ^ (n + 1) * q ||| y) % 2 = 1 := by
          rw [Nat.or_mod_two_eq_one]
          omega
        omega
      · have heq : (2 ^ (n + 1) * q ||| y) % 2 = 1 := by
          rw [Nat.or_mod_two_eq_one]
          omega
        omega
    have hp : 2 ^ (n + 1) = 2 ^ n * 2 := by ring
    have hy2 : y / 2 < 2 ^ n := by omega
    have h3 := ih q (y / 2) hy2
    have h1 := Nat.div_add_mod (2 ^ (n + 1) * q ||| y) 2
    have h2 := Nat.div_add_mod y 2
    omega

/-- Truncation to `2 ^ n` bits commutes with bitwise or. -/
theorem or_mod_two_pow (x y n : Nat) :
    (x ||| y) % 2 ^ n = x % 2 ^ n ||| y % 2 ^ n := by
  apply Nat.eq_of_testBit_eq
  intro i
  simp only [Nat.testBit_mod_two_pow, Nat.testBit_or]
  rcases Decidable.em (i < n) with h | h
  · simp [h]
  · simp [h]

/-! ### Evaluation lemmas for the embedded operations -/

/-- At a time `d` milliseconds past the epoch, the elapsed duration is `d`. -/
theorem durationSinceEpochMs_add (d : Nat) :
    durationSinceEpochMs (ELUDRIS_EPOCH_MS + d) = some d := by
  unfold durationSinceEpochMs
  rw [if_neg (by omega), Nat.add_sub_cancel_left]

/-- Raw unfolding of `generate_id` at a time past the epoch. -/
theorem generate_id_eq (g : IDGenerator) (d : Nat) :
    g.generate_id (ELUDRIS_EPOCH_MS + d) =
      some (((((d % 2 ^ 64) <<< 24) % 2 ^ 64 ||| g.instance_id) <<< 8) % 2 ^ 64 |||
          next_sequence g.sequence,
        { g with sequence := next_sequence g.sequence }) := by
  simp [IDGenerator.generate_id, durationSinceEpochMs_add]

/-- The sequence update stays within the `u8` range. -/
theorem next_sequence_lt (s : Nat) (hs : s < 256) : next_sequence s < 256 := by
  unfold next_sequence
  split <;> omega

/-- On the `u8` range the sequence update is the increment modulo 256. -/
theorem next_sequence_eq_mod (s : Nat) (hs : s < 256) : next_sequence s = (s + 1) % 256 := by
  unfold next_sequence
  split <;> omega

/-- Closed arithmetic form of a generated ID when the instance id fits in
24 bits (as every id produced by `generate_instance_id` does) and the
sequence respects its `u8` range: the 64-bit result decomposes as
`2 ^ 32 * (millis mod 2 ^ 32) + 256 * instance_id + new_sequence`. -/
theorem generate_id_closed_form (inst s d : Nat) (hi : inst < 2 ^ 24) (hs : s < 256) :
    (IDGenerator.mk inst s).generate_id (ELUDRIS_EPOCH_MS + d) =
      some (2 ^ 32 * (d % 2 ^ 32) + 256 * inst + next_sequence s,
        IDGenerator.mk inst (next_sequence s)) := by
  rw [generate_id_eq]
  have hns : next_sequence s < 2 ^ 8 := by
    have := next_sequence_lt s hs
    omega
  have e1 : ((d % 2 ^ 64) <<< 24) % 2 ^ 64 = 2 ^ 24 * (d % 2 ^ 40) := by
    rw [Nat.shiftLeft_eq]
    omega
  rw [e1, or_two_pow_mul 24 _ inst hi]
  have e2 : ((2 ^ 24 * (d % 2 ^ 40) + inst) <<< 8) % 2 ^ 64 =
      2 ^ 8 * (2 ^ 24 * (d % 2 ^ 32) + inst) := by
    rw [Nat.shiftLeft_eq]
    omega
  rw [e2, or_two_pow_mul 8 _ (next_sequence s) hns]
  simp only [Option.some.injEq, Prod.mk.injEq]
  exact ⟨by omega, trivial⟩

/-- The low byte of a generated ID is the updated sequence value,
whatever the instance id. -/
theorem or_low_byte (x s : Nat) (hs : s < 256) :
    ((x <<< 8) % 2 ^ 64 ||| s) &&& 0xFF = s := by
  have h1 : (x <<< 8) % 2 ^ 64 = 2 ^ 8 * (x % 2 ^ 56) := by
    rw [Nat.shiftLeft_eq]
    omega
  rw [h1, or_two_pow_mul 8 _ s (by omega)]
  have h255 : (0xFF : Nat) = 2 ^ 8 - 1 := by norm_num
  rw [h255, Nat.and_pow_two_sub_one_eq_mod]
  omega

/-- One successful `generate_id` step: at a time past the epoch the call
returns an ID whose low byte is the updated sequence, and the state moves
to `next_sequence`. -/
theorem generate_id_step (g : IDGenerator) (t : Nat) (ht : ELUDRIS_EPOCH_MS ≤ t)
    (hs : g.sequence < 256) :
    ∃ id, g.generate_id t = some (id, IDGenerator.mk g.instance_id (next_sequence g.sequence)) ∧
      id &&& 0xFF = next_sequence g.sequence := by
  obtain ⟨d, rfl⟩ : ∃ d, t = ELUDRIS_EPOCH_MS + d := ⟨t - ELUDRIS_EPOCH_MS, by omega⟩
  refine ⟨((((d % 2 ^ 64) <<< 24) % 2 ^ 64 ||| g.instance_id) <<< 8) % 2 ^ 64 |||
      next_sequence g.sequence, ?_, ?_⟩
  · rw [generate_id_eq]
  · exact or_low_byte _ _ (next_sequence_lt _ hs)

/-- Invariant of a run of `generate_id` calls all made at or after the
epoch: the run returns one ID per call, the instance id is never mutated,
the sequence advances by the number of calls modulo 256, and the low byte
of the k-th ID (0-based) is `(start_sequence + k + 1) % 256`. -/
theorem generate_ids_spec :
    ∀ (times : List Nat) (g : IDGenerator) (ids : List Nat) (g' : IDGenerator),
      (∀ t ∈ times, ELUDRIS_EPOCH_MS ≤ t) → g.sequence < 256 →
      g.generate_ids times = some (ids, g') →
      ids.length = times.length ∧ g'.instance_id = g.instance_id ∧
      g'.sequence = (g.sequence + times.length) % 256 ∧
      ∀ k, k < ids.length → ids.getD k 0 &&& 0xFF = (g.sequence + (k + 1)) % 256 := by
  intro times
  induction times with
  | nil =>
    intro g ids g' _ hs h
    simp only [IDGenerator.generate_ids, Option.some.injEq, Prod.mk.injEq] at h
    obtain ⟨h1, h2⟩ := h
    subst h1
    subst h2
    refine ⟨rfl, rfl, by simp; omega, ?_⟩
    intro k hk
    simp at hk
  | cons t ts ih =>
    intro g ids g' hts hs h
    obtain ⟨id1, hid1, hlow⟩ := generate_id_step g t (hts t (by simp)) hs
    simp only [IDGenerator.generate_ids, hid1] at h
    cases hrec : (IDGenerator.mk g.instance_id (next_sequence g.sequence)).generate_ids ts with
    | none =>
      simp [hrec] at h
    | some p =>
      obtain ⟨ids2, g2⟩ := p
      simp only [hrec, Option.some.injEq, Prod.mk.injEq] at h
      obtain ⟨h1, h2⟩ := h
      subst h1
      subst h2
      obtain ⟨hlen, hinst, hseq, hget⟩ :=
        ih (IDGenerator.mk g.instance_id (next_sequence g.sequence)) ids2 g2
          (fun t' ht' => hts t' (by simp [ht'])) (next_sequence_lt _ hs) hrec
      have hinst' : g2.instance_id = g.instance_id := hinst
      have hseq' : g2.sequence = (next_sequence g.sequence + ts.length) % 256 := hseq
      have hget' : ∀ k, k < ids2.length →
          ids2.getD k 0 &&& 0xFF = (next_sequence g.sequence + (k + 1)) % 256 := hget
      refine ⟨by simp [hlen], hinst', ?_, ?_⟩
      · rw [hseq', next_sequence_eq_mod _ hs]
        simp only [List.length_cons]
        omega
      · intro k hk
        cases k with
        | zero =>
          simp only [List.getD_cons_zero]
          rw [hlow, next_sequence_eq_mod _ hs]
        | succ k' =>
          have hk' : k' < ids2.length := by
            simp only [List.length_cons] at hk
            omega
          simp only [List.getD_cons_succ]
          rw [hget' k' hk', next_sequence_eq_mod _ hs]
          omega

/-- The truncated-shift core of `generate_id`, rewritten so that the
elapsed milliseconds appear only through their residue modulo `2 ^ 32`. -/
theorem shifted_or_mod (inst d : Nat) :
    ((((d % 2 ^ 64) <<< 24) % 2 ^ 64 ||| inst) <<< 8) % 2 ^ 64 =
      2 ^ 8 * (2 ^ 24 * (d % 2 ^ 32) ||| inst % 2 ^ 56) := by
  rw [Nat.shiftLeft_eq, Nat.shiftLeft_eq]
  have h1 : ((d % 2 ^ 64 * 2 ^ 24) % 2 ^ 64 ||| inst) * 2 ^ 8 % 2 ^ 64 =
      2 ^ 8 * (((d % 2 ^ 64 * 2 ^ 24) % 2 ^ 64 ||| inst) % 2 ^ 56) := by
    omega
  rw [h1, or_mod_two_pow]
  have h2 : (d % 2 ^ 64 * 2 ^ 24) % 2 ^ 64 % 2 ^ 56 = 2 ^ 24 * (d % 2 ^ 32) := by
    omega
  rw [h2]

/-! ### Claim C1 -/

/-- C1 counterexample: a generator with instance id 1, first call made
exactly at the epoch, yields the 64-bit ID 257, whose low 16 bits are 257
(not the sequence value 1) and whose bits 16 and up are 0 (not the
instance id 1) — refuting the claimed 128-bit
`(timestamp << 64) | (instance_id << 16) | sequence` layout. -/
theorem C1_counterexample :
    (IDGenerator.new 1).generate_id ELUDRIS_EPOCH_MS = some (257, IDGenerator.mk 1 1) ∧
    ¬((257 : Nat) &&& 0xFFFF = 1) ∧ ¬(((257 : Nat) >>> 16) &&& 0xFFFFFFFFFFFF = 1) := by
  decide

/-- C1 (amended): a generated ID is the 64-bit value
`(((elapsed_ms as u64) << 24 | instance_id) << 8 | sequence) mod 2^64`;
for an instance id below `2^24` it equals
`2^32 * (elapsed_ms mod 2^32) + 256 * instance_id + sequence`, so
`id & 0xFF` is the sequence value observed at issuance, `(id >> 8) &
0xFFFFFF` is the instance id, and `id >> 32` is the elapsed milliseconds
since the Epoch Clock reduced modulo `2^32`. -/
theorem C1_id_layout (inst s d a : Nat) (g' : IDGenerator)
    (hi : inst < 2 ^ 24) (hs : s < 256)
    (h : (IDGenerator.mk inst s).generate_id (ELUDRIS_EPOCH_MS + d) = some (a, g')) :
    a = 2 ^ 32 * (d % 2 ^ 32) + 256 * inst + next_sequence s ∧
    a &&& 0xFF = next_sequence s ∧
    (a >>> 8) &&& 0xFFFFFF = inst ∧
    a >>> 32 = d % 2 ^ 32 := by
  rw [generate_id_closed_form inst s d hi hs] at h
  simp only [Option.some.injEq, Prod.mk.injEq] at h
  obtain ⟨ha, -⟩ := h
  subst ha
  have hns : next_sequence s < 256 := next_sequence_lt s hs
  refine ⟨rfl, ?_, ?_, ?_⟩
  · have h255 : (0xFF : Nat) = 2 ^ 8 - 1 := by norm_num
    rw [h255, Nat.and_pow_two_sub_one_eq_mod]
    omega
  · have hm : (0xFFFFFF : Nat) = 2 ^ 24 - 1 := by norm_num
    rw [Nat.shiftRight_eq_div_pow, hm, Nat.and_pow_two_sub_one_eq_mod]
    omega
  · rw [Nat.shiftRight_eq_div_pow]
    omega

/-- C1 witness: the amended layout at instance id 1, sequence 0, elapsed 0. -/
theorem C1_id_layout_witness :
    (257 : Nat) = 2 ^ 32 * (0 % 2 ^ 32) + 256 * 1 + next_sequence 0 ∧
    (257 : Nat) &&& 0xFF = next_sequence 0 ∧
    ((257 : Nat) >>> 8) &&& 0xFFFFFF = 1 ∧
    (257 : Nat) >>> 32 = 0 % 2 ^ 32 :=
  C1_id_layout 1 0 0 257 (IDGenerator.mk 1 1) (by norm_num) (by norm_num) (by decide)

/-! ### Claim C2 -/

/-- C2 counterexample: same generator, clock strictly advancing, the two
calls fall in different elapsed seconds (4294967 and 4294968), yet the
first ID is larger than the second, because the millisecond timestamp is
truncated to 32 bits when shifted into the 64-bit ID. -/
theorem C2_counterexample :
    ELUDRIS_EPOCH_MS + 4294967295 ≤ ELUDRIS_EPOCH_MS + 4294968000 ∧
    4294967295 / 1000 ≠ 4294968000 / 1000 ∧
    (IDGenerator.new 0).generate_id (ELUDRIS_EPOCH_MS + 4294967295) =
      some (18446744069414584321, IDGenerator.mk 0 1) ∧
    (IDGenerator.mk 0 1).generate_id (ELUDRIS_EPOCH_MS + 4294968000) =
      some (3023656976386, IDGenerator.mk 0 2) ∧
    ¬((18446744069414584321 : Nat) ≤ 3023656976386) := by
  decide

/-- C2 (amended): for two IDs `a` then `b` issued by the same generator
whose instance id is below `2^24` and sequence in `u8` range, with the
clock not moving backward, if the two issuances fall in different elapsed
seconds AND the later issuance is below `2^32` elapsed milliseconds (no
32-bit timestamp wraparound between them), then `a < b` as unsigned
64-bit integers. -/
theorem C2_monotone (inst s0 t1 t2 a b : Nat) (g1 g2 : IDGenerator)
    (hi : inst < 2 ^ 24) (hs : s0 < 256)
    (ht1 : ELUDRIS_EPOCH_MS ≤ t1) (h12 : t1 ≤ t2)
    (hwrap : t2 - ELUDRIS_EPOCH_MS < 2 ^ 32)
    (hsec : (t1 - ELUDRIS_EPOCH_MS) / 1000 ≠ (t2 - ELUDRIS_EPOCH_MS) / 1000)
    (ha : (IDGenerator.mk inst s0).generate_id t1 = some (a, g1))
    (hb : g1.generate_id t2 = some (b, g2)) :
    a < b := by
  obtain ⟨d1, rfl⟩ : ∃ d1, t1 = ELUDRIS_EPOCH_MS + d1 := ⟨t1 - ELUDRIS_EPOCH_MS, by omega⟩
  obtain ⟨d2, rfl⟩ : ∃ d2, t2 = ELUDRIS_EPOCH_MS + d2 := ⟨t2 - ELUDRIS_EPOCH_MS, by omega⟩
  rw [generate_id_closed_form inst s0 d1 hi hs] at ha
  simp only [Option.some.injEq, Prod.mk.injEq] at ha
  obtain ⟨ha1, ha2⟩ := ha
  subst ha1
  subst ha2
  have hs1 : next_sequence s0 < 256 := next_sequence_lt s0 hs
  rw [generate_id_closed_form inst (next_sequence s0) d2 hi hs1] at hb
  simp only [Option.some.injEq, Prod.mk.injEq] at hb
  obtain ⟨hb1, -⟩ := hb
  subst hb1
  have hs2 : next_sequence (next_sequence s0) < 256 := next_sequence_lt _ hs1
  omega

/-- C2 witness: two calls one second apart, 1 < 4294967296002. -/
theorem C2_monotone_witness : (1 : Nat) < 4294967296002 :=
  C2_monotone 0 0 ELUDRIS_EPOCH_MS (ELUDRIS_EPOCH_MS + 1000) 1 4294967296002
    (IDGenerator.mk 0 1) (IDGenerator.mk 0 2)
    (by norm_num) (by norm_num) (le_refl _) (by omega) (by omega) (by omega)
    (by decide) (by decide)

/-! ### Claim C3 -/

/-- C3 counterexample: a freshly constructed generator with instance
id 87, first call at the epoch: the ID is 22273, whose low 16 bits are
22273, not the call index 1 — the low-16-bit field also contains the low
byte of the instance id, because the sequence field is only 8 bits. -/
theorem C3_counterexample :
    (IDGenerator.new 87).generate_id ELUDRIS_EPOCH_MS = some (22273, IDGenerator.mk 87 1) ∧
    ¬((22273 : Nat) &&& 0xFFFF = 1) := by
  decide

/-- C3 (amended): for a generator freshly constructed by `new` (sequence
0), the N-th consecutive `generate_id` call (1-based, all calls at or
after the epoch) returns an ID whose low-8-bit field is `N % 256`, hence
equals `N` for every `N < 256`; in particular the first call always
yields a low byte of 1, never 0. -/
theorem C3_nth_low_byte (inst : Nat) (times ids : List Nat) (g' : IDGenerator)
    (ht : ∀ t ∈ times, ELUDRIS_EPOCH_MS ≤ t)
    (h : (IDGenerator.new inst).generate_ids times = some (ids, g')) :
    (∀ k, k < ids.length → ids.getD k 0 &&& 0xFF = (k + 1) % 256) ∧
    (0 < ids.length → ids.getD 0 0 &&& 0xFF = 1 ∧ ids.getD 0 0 &&& 0xFF ≠ 0) := by
  obtain ⟨-, -, -, hget⟩ :=
    generate_ids_spec times (IDGenerator.new inst) ids g' ht
      (show (0 : Nat) < 256 by norm_num) h
  have hget' : ∀ k, k < ids.length → ids.getD k 0 &&& 0xFF = (k + 1) % 256 := by
    intro k hk
    have hx := hget k hk
    simpa [IDGenerator.new] using hx
  refine ⟨hget', fun h0 => ?_⟩
  have h1 : ids.getD 0 0 &&& 0xFF = 1 := by simpa using hget' 0 h0
  exact ⟨h1, by omega⟩

/-- C3 witness: a single call at the epoch produces the ID list `[1]`. -/
theorem C3_nth_low_byte_witness :
    (∀ k, k < [(1 : Nat)].length → [(1 : Nat)].getD k 0 &&& 0xFF = (k + 1) % 256) ∧
    (0 < [(1 : Nat)].length →
      [(1 : Nat)].getD 0 0 &&& 0xFF = 1 ∧ [(1 : Nat)].getD 0 0 &&& 0xFF ≠ 0) :=
  C3_nth_low_byte 0 [ELUDRIS_EPOCH_MS] [1] (IDGenerator.mk 0 1) (by simp) (by decide)

/-! ### Claim C4 -/

/-- C4 counterexample: the sequence wraps at 255 (`u8::MAX`), not 65535:
a generator whose sequence is 255 (which is not 65535, so the claim
predicts the update `sequence + 1 = 256`) instead wraps to 0, and the
issued ID's low-16-bit field is 0, not 256. -/
theorem C4_counterexample :
    (IDGenerator.mk 0 255).generate_id ELUDRIS_EPOCH_MS = some (0, IDGenerator.mk 0 0) ∧
    (255 : Nat) ≠ 65535 ∧ ¬((0 : Nat) &&& 0xFFFF = 255 + 1) := by
  decide

/-- C4 (amended): each `generate_id` call first sets the sequence to 0 if
it equals 255 (`u8::MAX`) and to `sequence + 1` otherwise, then reads the
updated value into the output; from a generator pre-set to sequence 254,
three consecutive calls produce IDs whose low-8-bit fields are 255, 0, 1
in that order, and the post-call sequence is 0 exactly when the pre-call
sequence was 255. -/
theorem C4_wraparound (inst t1 t2 t3 : Nat)
    (h1 : ELUDRIS_EPOCH_MS ≤ t1) (h2 : ELUDRIS_EPOCH_MS ≤ t2) (h3 : ELUDRIS_EPOCH_MS ≤ t3) :
    (∃ a b c g', (IDGenerator.mk inst 254).generate_ids [t1, t2, t3] = some ([a, b, c], g') ∧
      a &&& 0xFF = 255 ∧ b &&& 0xFF = 0 ∧ c &&& 0xFF = 1) ∧
    (∀ (g g' : IDGenerator) (now id : Nat), g.generate_id now = some (id, g') →
      (g'.sequence = 0 ↔ g.sequence = 255)) := by
  constructor
  · obtain ⟨a, ha, hla⟩ := generate_id_step (IDGenerator.mk inst 254) t1 h1 (by norm_num)
    obtain ⟨b, hbq, hlb⟩ := generate_id_step (IDGenerator.mk inst 255) t2 h2 (by norm_num)
    obtain ⟨c, hcq, hlc⟩ := generate_id_step (IDGenerator.mk inst 0) t3 h3 (by norm_num)
    have ha' : (IDGenerator.mk inst 254).generate_id t1 = some (a, IDGenerator.mk inst 255) := ha
    have hb' : (IDGenerator.mk inst 255).generate_id t2 = some (b, IDGenerator.mk inst 0) := hbq
    have hc' : (IDGenerator.mk inst 0).generate_id t3 = some (c, IDGenerator.mk inst 1) := hcq
    refine ⟨a, b, c, IDGenerator.mk inst 1, ?_, hla, hlb, hlc⟩
    simp only [IDGenerator.generate_ids, ha', hb', hc']
  · intro g g' now id h
    cases hd : durationSinceEpochMs now with
    | none => simp [IDGenerator.generate_id, hd] at h
    | some m =>
      simp only [IDGenerator.generate_id, hd, Option.some.injEq, Prod.mk.injEq] at h
      obtain ⟨-, h2'⟩ := h
      subst h2'
      show next_sequence g.sequence = 0 ↔ g.sequence = 255
      unfold next_sequence
      split <;> omega

/-- C4 witness: three calls at the epoch from sequence 254. -/
theorem C4_wraparound_witness :
    (∃ a b c g', (IDGenerator.mk 0 254).generate_ids
        [ELUDRIS_EPOCH_MS, ELUDRIS_EPOCH_MS, ELUDRIS_EPOCH_MS] = some ([a, b, c], g') ∧
      a &&& 0xFF = 255 ∧ b &&& 0xFF = 0 ∧ c &&& 0xFF = 1) ∧
    (∀ (g g' : IDGenerator) (now id : Nat), g.generate_id now = some (id, g') →
      (g'.sequence = 0 ↔ g.sequence = 255)) :=
  C4_wraparound 0 ELUDRIS_EPOCH_MS ELUDRIS_EPOCH_MS ELUDRIS_EPOCH_MS
    (le_refl _) (le_refl _) (le_refl _)

/-! ### Claim C5 -/

/-- Closed form of `generate_instance_id` for a non-empty name whose
first byte is `b`: the result is `((elapsed_ms mod 2^16) << 8) | b`. -/
theorem generate_instance_id_eval (d b : Nat) (name : List Nat) (hb : b < 256)
    (hh : name.head? = some b) :
    generate_instance_id (ELUDRIS_EPOCH_MS + d) name = some (2 ^ 8 * (d % 2 ^ 16) + b) := by
  simp only [generate_instance_id, durationSinceEpochMs_add, hh]
  have h1 : (d % 2 ^ 32) &&& 0xFFFF = d % 2 ^ 16 := by
    have h16 : (0xFFFF : Nat) = 2 ^ 16 - 1 := by norm_num
    rw [h16, Nat.and_pow_two_sub_one_eq_mod]
    omega
  rw [h1, Nat.shiftLeft_eq]
  have h2 : d % 2 ^ 16 * 2 ^ 8 % 2 ^ 32 = 2 ^ 8 * (d % 2 ^ 16) := by omega
  rw [h2, or_two_pow_mul 8 _ b (by omega)]

/-- C5 counterexample: at the epoch itself (elapsed seconds 0, so the
claimed result `elapsed_seconds & 0xFFFFFFFFFFFF` is 0), the derivation
returns 87 for the name "W…" — and a different value, 88, for a name
starting with "X": the result depends on the instance name, has a name
byte in its low bits, and is not the masked elapsed seconds. -/
theorem C5_counterexample :
    generate_instance_id ELUDRIS_EPOCH_MS [87] = some 87 ∧
    generate_instance_id ELUDRIS_EPOCH_MS [88] = some 88 ∧
    (87 : Nat) ≠ 88 ∧
    ((ELUDRIS_EPOCH_MS - ELUDRIS_EPOCH_MS) / 1000) &&& 0xFFFFFFFFFFFF = 0 ∧
    (87 : Nat) ≠ 0 := by
  decide

/-- C5 (amended): the instance-identity derivation takes the instance
name in addition to the current wall-clock time; for any non-empty name
with first byte `b` it returns
`((elapsed_ms since the Epoch Clock mod 2^16) << 8) | b`, with no
further validation. -/
theorem C5_instance_id_derivation (d b : Nat) (name : List Nat) (hb : b < 256)
    (hh : name.head? = some b) :
    generate_instance_id (ELUDRIS_EPOCH_MS + d) name = some (2 ^ 8 * (d % 2 ^ 16) + b) :=
  generate_instance_id_eval d b name hb hh

/-- C5 witness: name byte 87 at elapsed 0 gives 87. -/
theorem C5_instance_id_derivation_witness :
    generate_instance_id (ELUDRIS_EPOCH_MS + 0) [87] = some (2 ^ 8 * (0 % 2 ^ 16) + 87) :=
  C5_instance_id_derivation 0 87 [87] (by norm_num) rfl

/-! ### Claim C6 -/

/-- C6 counterexample: at a time at (hence at or after) the Epoch Clock,
instance-id derivation still fails — on the empty instance name — so
"neither operation can fail" under the clock precondition is false. -/
theorem C6_counterexample :
    ELUDRIS_EPOCH_MS ≤ ELUDRIS_EPOCH_MS ∧
    generate_instance_id ELUDRIS_EPOCH_MS [] = none := by
  decide

/-- C6 (amended): if the clock reports an instant before the Epoch Clock,
both operations fail (the modelled panic, `none`); when the current time
is at or after the Epoch Clock, `generate_id` cannot fail, and instance-id
derivation cannot fail provided the instance name is non-empty (on an
empty name it fails even with a healthy clock). -/
theorem C6_clock_fatal :
    (∀ (now : Nat) (name : List Nat), now < ELUDRIS_EPOCH_MS →
      generate_instance_id now name = none) ∧
    (∀ (g : IDGenerator) (now : Nat), now < ELUDRIS_EPOCH_MS → g.generate_id now = none) ∧
    (∀ (g : IDGenerator) (now : Nat), ELUDRIS_EPOCH_MS ≤ now →
      (g.generate_id now).isSome = true) ∧
    (∀ (now : Nat) (name : List Nat), ELUDRIS_EPOCH_MS ≤ now → name ≠ [] →
      (generate_instance_id now name).isSome = true) := by
  refine ⟨?_, ?_, ?_, ?_⟩
  · intro now name h
    simp [generate_instance_id, durationSinceEpochMs, h]
  · intro g now h
    simp [IDGenerator.generate_id, durationSinceEpochMs, h]
  · intro g now h
    simp [IDGenerator.generate_id, durationSinceEpochMs, Nat.not_lt.mpr h]
  · intro now name h hne
    cases name with
    | nil => exact absurd rfl hne
    | cons b bs =>
      simp [generate_instance_id, durationSinceEpochMs, Nat.not_lt.mpr h]

/-- C6 witness: concrete failure before the epoch, success at the epoch. -/
theorem C6_clock_fatal_witness :
    generate_instance_id 0 [87] = none ∧
    (IDGenerator.new 0).generate_id 0 = none ∧
    ((IDGenerator.new 0).generate_id ELUDRIS_EPOCH_MS).isSome = true ∧
    (generate_instance_id ELUDRIS_EPOCH_MS [87]).isSome = true :=
  ⟨C6_clock_fatal.1 0 [87] (by decide), C6_clock_fatal.2.1 (IDGenerator.new 0) 0 (by decide),
    C6_clock_fatal.2.2.1 (IDGenerator.new 0) ELUDRIS_EPOCH_MS (le_refl _),
    C6_clock_fatal.2.2.2 ELUDRIS_EPOCH_MS [87] (le_refl _) (by simp)⟩

/-! ### Claim C7 -/

/-- C7: whenever the instance-identity derivation returns a value (for
any current time and any name made of bytes), that value is strictly
below `2^48` — in fact the code keeps it below `2^24`. -/
theorem C7_instance_id_lt (now : Nat) (name : List Nat) (r : Nat)
    (hb : ∀ x ∈ name, x < 256)
    (h : generate_instance_id now name = some r) :
    r < 2 ^ 48 := by
  cases hd : durationSinceEpochMs now with
  | none => simp [generate_instance_id, hd] at h
  | some m =>
    cases name with
    | nil => simp [generate_instance_id, hd] at h
    | cons b bs =>
      simp only [generate_instance_id, hd, List.head?_cons, Option.some.injEq] at h
      subst h
      have hb' : b < 256 := hb b (by simp)
      have h1 : ((m % 2 ^ 32) &&& 0xFFFF) <<< 8 % 2 ^ 32 < 2 ^ 48 := by
        have hm := Nat.mod_lt (((m % 2 ^ 32) &&& 0xFFFF) <<< 8) (show 0 < 2 ^ 32 by norm_num)
        omega
      exact Nat.or_lt_two_pow h1 (by omega)

/-- C7 witness: the derived value 87 is below `2^48`. -/
theorem C7_instance_id_lt_witness : (87 : Nat) < 2 ^ 48 :=
  C7_instance_id_lt ELUDRIS_EPOCH_MS [87] 87
    (by intro x hx; simp at hx; omega) (by decide)

/-! ### Claim C8 -/

/-- C8: the Epoch Clock constant is exactly the Unix epoch plus
1,650,000,000 seconds, and every timestamp the subsystem uses is the
elapsed time since that point: at `epoch + d` milliseconds the measured
duration is `d`, before the epoch it is a failure, and at or after the
epoch it is `now - epoch`. -/
theorem C8_epoch_constant :
    ELUDRIS_EPOCH_SECS = 1650000000 ∧
    ELUDRIS_EPOCH_MS = ELUDRIS_EPOCH_SECS * 1000 ∧
    (∀ d, durationSinceEpochMs (ELUDRIS_EPOCH_MS + d) = some d) ∧
    (∀ now, now < ELUDRIS_EPOCH_MS → durationSinceEpochMs now = none) ∧
    (∀ now, ELUDRIS_EPOCH_MS ≤ now →
      durationSinceEpochMs now = some (now - ELUDRIS_EPOCH_MS)) := by
  refine ⟨rfl, rfl, durationSinceEpochMs_add, ?_, ?_⟩
  · intro now h
    simp [durationSinceEpochMs, h]
  · intro now h
    simp [durationSinceEpochMs, Nat.not_lt.mpr h]

/-- C8 witness: concrete elapsed-time measurements around the epoch. -/
theorem C8_epoch_constant_witness :
    durationSinceEpochMs (ELUDRIS_EPOCH_MS + 5) = some 5 ∧
    durationSinceEpochMs 0 = none ∧
    durationSinceEpochMs ELUDRIS_EPOCH_MS = some (ELUDRIS_EPOCH_MS - ELUDRIS_EPOCH_MS) :=
  ⟨C8_epoch_constant.2.2.1 5, C8_epoch_constant.2.2.2.1 0 (by decide),
    C8_epoch_constant.2.2.2.2 ELUDRIS_EPOCH_MS (le_refl _)⟩

/-! ### Claim C9 -/

/-- C9: the ID's timestamp is the elapsed milliseconds reduced modulo
`2^32`: shifting the generation time by `2^32` milliseconds (about 49.7
days) produces the identical call result for any generator state, and for
an instance id below `2^24` and a `u8` sequence, the top 32 bits of the
ID (`id >> 32`) are exactly `elapsed_ms % 2^32`. -/
theorem C9_timestamp_wraps :
    (∀ (g : IDGenerator) (d : Nat),
      g.generate_id (ELUDRIS_EPOCH_MS + (d + 2 ^ 32)) =
        g.generate_id (ELUDRIS_EPOCH_MS + d)) ∧
    (∀ (inst s d a : Nat) (g' : IDGenerator), inst < 2 ^ 24 → s < 256 →
      (IDGenerator.mk inst s).generate_id (ELUDRIS_EPOCH_MS + d) = some (a, g') →
      a >>> 32 = d % 2 ^ 32) := by
  constructor
  · intro g d
    rw [generate_id_eq, generate_id_eq,
      shifted_or_mod g.instance_id (d + 2 ^ 32), shifted_or_mod g.instance_id d,
      Nat.add_mod_right]
  · intro inst s d a g' hi hs h
    rw [generate_id_closed_form inst s d hi hs] at h
    simp only [Option.some.injEq, Prod.mk.injEq] at h
    obtain ⟨ha, -⟩ := h
    subst ha
    have hns : next_sequence s < 256 := next_sequence_lt s hs
    rw [Nat.shiftRight_eq_div_pow]
    omega

/-- C9 witness: period `2^32` ms at elapsed 0, and the top bits of the
ID 1 issued at elapsed 0 are 0. -/
theorem C9_timestamp_wraps_witness :
    (IDGenerator.new 0).generate_id (ELUDRIS_EPOCH_MS + (0 + 2 ^ 32)) =
      (IDGenerator.new 0).generate_id (ELUDRIS_EPOCH_MS + 0) ∧
    (1 : Nat) >>> 32 = 0 % 2 ^ 32 :=
  ⟨C9_timestamp_wraps.1 (IDGenerator.new 0) 0,
    C9_timestamp_wraps.2 0 0 0 1 (IDGenerator.mk 0 1) (by norm_num) (by norm_num) (by decide)⟩

/-! ### Claim C10 -/

/-- C10: `generate_instance_id` fails on an empty instance name at every
time; for a non-empty name with first byte `b < 256` the result is
`((elapsed_ms & 0xFFFF) << 8) | b`, so its low 8 bits are the name's
first byte and the bits above are `elapsed_ms mod 2^16` — the derived
instance id depends on the name, not only on time. -/
theorem C10_name_dependence :
    (∀ now, generate_instance_id now [] = none) ∧
    (∀ (d b : Nat) (name : List Nat), b < 256 → name.head? = some b →
      generate_instance_id (ELUDRIS_EPOCH_MS + d) name = some (2 ^ 8 * (d % 2 ^ 16) + b) ∧
      (2 ^ 8 * (d % 2 ^ 16) + b) &&& 0xFF = b ∧
      (2 ^ 8 * (d % 2 ^ 16) + b) >>> 8 = d % 2 ^ 16) := by
  constructor
  · intro now
    cases hd : durationSinceEpochMs now with
    | none => simp [generate_instance_id, hd]
    | some m => simp [generate_instance_id, hd]
  · intro d b name hb hh
    refine ⟨generate_instance_id_eval d b name hb hh, ?_, ?_⟩
    · have h255 : (0xFF : Nat) = 2 ^ 8 - 1 := by norm_num
      rw [h255, Nat.and_pow_two_sub_one_eq_mod]
      omega
    · rw [Nat.shiftRight_eq_div_pow]
      omega

/-- C10 witness: empty name fails at time 0; name byte 87 at elapsed 3. -/
theorem C10_name_dependence_witness :
    generate_instance_id 0 [] = none ∧
    (generate_instance_id (ELUDRIS_EPOCH_MS + 3) [87] = some (2 ^ 8 * (3 % 2 ^ 16) + 87) ∧
      (2 ^ 8 * (3 % 2 ^ 16) + 87) &&& 0xFF = 87 ∧
      (2 ^ 8 * (3 % 2 ^ 16) + 87) >>> 8 = 3 % 2 ^ 16) :=
  ⟨C10_name_dependence.1 0, C10_name_dependence.2 3 87 [87] (by norm_num) rfl⟩

end Todel
